import Mathlib

/-!
Verification of the `process` module of the openmetadata repository:
pre- and post-processing of data prior to being input or output.

The module is a format registry (`mapping`) dispatching to four handlers
(`DotTxt`, `DotJson`, `DotIni`, `DotGdoc`), each exposing an outbound
transform `pre` and an inbound transform `post`.  The embedding below
translates the module faithfully; the standard-library calls it makes
(`str`, `json.dumps`, `json.loads`, `ConfigParser`) are modelled as
executable Lean functions over an explicit Python value type.
-/

/-- Python exception values that the module can raise or propagate.
`valueError` covers both the dispatcher's unsupported-format error and
`json` parse/encode errors (in Python they are all of class `ValueError`);
`typeError` covers `json.dumps` serialization failures and the wrapped
"Data corrupt" error; `notImplementedError` is `NotImplementedError`;
`attributeError` is `AttributeError`, raised when a missing attribute
such as `ConfigParser.read_string` is accessed; `configError` models
the `ConfigParser.Error` hierarchy. -/
inductive PyErr where
  | valueError (msg : String)
  | typeError (msg : String)
  | notImplementedError
  | attributeError (msg : String)
  | configError (msg : String)
deriving DecidableEq

/-- Python exception class name of an error value, the only thing an
`except SomeClass` clause in a caller can discriminate on. -/
def PyErr.pyType : PyErr → String
  | .valueError _ => "ValueError"
  | .typeError _ => "TypeError"
  | .notImplementedError => "NotImplementedError"
  | .attributeError _ => "AttributeError"
  | .configError _ => "ConfigParser.Error"

mutual
/-- Python values flowing through the module.  `pyNone` is `None`;
`selfRef` stands for an object graph containing a reference cycle
(e.g. `l = []; l.append(l)`), which `json.dumps` reports with
`ValueError("Circular reference detected")`; `obj r` stands for a
native object that is not JSON serializable (e.g. a `set`), with `r`
its `repr`.  Dictionaries carry string keys in iteration order. -/
inductive PyValue where
  | str (s : String)
  | int (n : Int)
  | bool (b : Bool)
  | pyNone
  | selfRef
  | obj (r : String)
  | list (xs : PyList)
  | dict (kvs : PyDict)

/-- A Python list of values. -/
inductive PyList where
  | nil
  | cons (x : PyValue) (xs : PyList)

/-- A Python dict with string keys, in iteration order. -/
inductive PyDict where
  | nil
  | cons (k : String) (v : PyValue) (kvs : PyDict)
end

/-- Decimal digit character for a value below ten. -/
def digitChar : Nat → Char
  | 0 => '0' | 1 => '1' | 2 => '2' | 3 => '3' | 4 => '4'
  | 5 => '5' | 6 => '6' | 7 => '7' | 8 => '8' | _ => '9'

/-- Numeric value of a decimal digit character. -/
def dval (c : Char) : Nat := c.toNat - 48

/-- Decimal digits of a natural number, most significant first.
The first argument is fuel; any fuel above the number suffices. -/
def natDigitsAux : Nat → Nat → List Char
  | 0, _ => []
  | fuel + 1, n =>
    if n < 10 then [digitChar n]
    else natDigitsAux fuel (n / 10) ++ [digitChar (n % 10)]

/-- Decimal digits of a natural number, most significant first. -/
def natDigits (n : Nat) : List Char := natDigitsAux (n + 1) n

/-- Character sequence of Python `str(n)` for an integer `n`. -/
def intChars (n : Int) : List Char :=
  if n < 0 then '-' :: natDigits n.natAbs else natDigits n.toNat

/-- Natural number denoted by a list of decimal digits. -/
def digitsToNat (ds : List Char) : Nat :=
  ds.foldl (fun a c => 10 * a + dval c) 0

mutual
/-- Python `repr` of a value.  Containers show their elements with
`repr`, strings are quoted with single quotes. -/
def pyRepr : PyValue → String
  | .str s => "\x27" ++ s ++ "\x27"
  | .int n => String.mk (intChars n)
  | .bool b => if b then "True" else "False"
  | .pyNone => "None"
  | .selfRef => "[[...]]"
  | .obj r => r
  | .list xs => "[" ++ pyReprL xs ++ "]"
  | .dict kvs => "\x7b" ++ pyReprD kvs ++ "\x7d"

/-- `repr` of the comma-separated element list of a Python list. -/
def pyReprL : PyList → String
  | .nil => ""
  | .cons x .nil => pyRepr x
  | .cons x xs => pyRepr x ++ ", " ++ pyReprL xs

/-- `repr` of the comma-separated item list of a Python dict. -/
def pyReprD : PyDict → String
  | .nil => ""
  | .cons k v .nil => "\x27" ++ k ++ "\x27: " ++ pyRepr v
  | .cons k v kvs => "\x27" ++ k ++ "\x27: " ++ pyRepr v ++ ", " ++ pyReprD kvs
end

/-- Python `str()` of a value: the display-string form.  For strings it
is the string itself, for every other value it agrees with `repr`. -/
def pyStr : PyValue → String
  | .str s => s
  | v => pyRepr v

/-- JSON insignificant whitespace, as skipped by the `json` scanner. -/
def isWs (c : Char) : Bool :=
  c == ' ' || c == '\t' || c == '\n' || c == '\r'

/-- Drop leading JSON whitespace. -/
def skipWs (cs : List Char) : List Char := cs.dropWhile isWs

/-- Indentation emitted by `json.dumps(raw, indent=4)` at nesting
depth `lvl`. -/
def indSp (lvl : Nat) : List Char := List.replicate (4 * lvl) ' '

mutual
/-- First serialization failure met by a depth-first traversal of the
value, as `json.dumps` would raise it: `ValueError` for a reference
cycle, `TypeError` for an unserializable native object. -/
def findErr : PyValue → Option PyErr
  | .selfRef => some (.valueError "Circular reference detected")
  | .obj r => some (.typeError (r ++ " is not JSON serializable"))
  | .list xs => findErrL xs
  | .dict kvs => findErrD kvs
  | _ => Option.none

/-- First serialization failure in a list of values. -/
def findErrL : PyList → Option PyErr
  | .nil => Option.none
  | .cons x xs =>
    match findErr x with
    | some e => some e
    | Option.none => findErrL xs

/-- First serialization failure in the values of a dict. -/
def findErrD : PyDict → Option PyErr
  | .nil => Option.none
  | .cons _ v kvs =>
    match findErr v with
    | some e => some e
    | Option.none => findErrD kvs
end

mutual
/-- Characters produced by `json.dumps(raw, indent=4)` for a
serializable value at nesting depth `lvl` (Python 2 keeps the default
item separator `", "`, so a trailing space precedes each newline).
Strings are emitted verbatim between quotes: escape sequences are not
modelled, so this is the output only for strings that need none. -/
def dumpOk : PyValue → Nat → List Char
  | .str s, _ => '"' :: (s.data ++ ['"'])
  | .int n, _ => intChars n
  | .bool b, _ => if b then ['t', 'r', 'u', 'e'] else ['f', 'a', 'l', 's', 'e']
  | .pyNone, _ => ['n', 'u', 'l', 'l']
  | .selfRef, _ => []
  | .obj _, _ => []
  | .list .nil, _ => ['[', ']']
  | .list (.cons x xs), lvl =>
    '[' :: '\n' :: (dumpElems (.cons x xs) (lvl + 1) ++ '\n' :: (indSp lvl ++ [']']))
  | .dict .nil, _ => ['\x7b', '\x7d']
  | .dict (.cons k v kvs), lvl =>
    '\x7b' :: '\n' :: (dumpPairs (.cons k v kvs) (lvl + 1) ++ '\n' :: (indSp lvl ++ ['\x7d']))

/-- Serialized list elements, one per line at depth `lvl`, separated by
`", \n"`. -/
def dumpElems : PyList → Nat → List Char
  | .nil, _ => []
  | .cons x .nil, lvl => indSp lvl ++ dumpOk x lvl
  | .cons x (.cons y ys), lvl =>
    indSp lvl ++ (dumpOk x lvl ++ ',' :: ' ' :: '\n' :: dumpElems (.cons y ys) lvl)

/-- Serialized dict items, one per line at depth `lvl`, with the key
separator `": "` and the item separator `", \n"`. -/
def dumpPairs : PyDict → Nat → List Char
  | .nil, _ => []
  | .cons k v .nil, lvl =>
    indSp lvl ++ ('"' :: (k.data ++ '"' :: ':' :: ' ' :: dumpOk v lvl))
  | .cons k v (.cons k2 v2 kvs), lvl =>
    indSp lvl ++ ('"' :: (k.data ++ '"' :: ':' :: ' ' :: (dumpOk v lvl ++
      ',' :: ' ' :: '\n' :: dumpPairs (.cons k2 v2 kvs) lvl)))
end

/-- Model of `json.dumps(raw, indent=4)`: raises the first
serialization failure found by traversal, otherwise returns the
indented text. -/
def json.dumps (raw : PyValue) : Except PyErr String :=
  match findErr raw with
  | some e => .error e
  | Option.none => .ok (String.mk (dumpOk raw 0))

/-- Parse the body of a JSON string literal after the opening quote:
returns the decoded characters and the input after the closing quote.
`\uXXXX` escapes are not modelled. -/
def parseStrBody : List Char → Option (List Char × List Char)
  | [] => Option.none
  | c :: rest =>
    if c = '"' then some ([], rest)
    else if c = '\\' then
      match rest with
      | [] => Option.none
      | e :: rest2 =>
        match
          (if e = '"' then some '"'
           else if e = '\\' then some '\\'
           else if e = '/' then some '/'
           else if e = 'n' then some '\n'
           else if e = 't' then some '\t'
           else if e = 'r' then some '\r'
           else if e = 'b' then some '\x08'
           else if e = 'f' then some '\x0c'
           else Option.none) with
        | Option.none => Option.none
        | some u =>
          match parseStrBody rest2 with
          | Option.none => Option.none
          | some (s, r) => some (u :: s, r)
    else
      match parseStrBody rest with
      | Option.none => Option.none
      | some (s, r) => some (c :: s, r)

/-- Parse a nonempty run of decimal digits into a natural number. -/
def parseNat (cs : List Char) : Option (Nat × List Char) :=
  match cs.takeWhile Char.isDigit with
  | [] => Option.none
  | ds => some (digitsToNat ds, cs.dropWhile Char.isDigit)

mutual
/-- Model of the `json` scanner for a single value: skips leading
whitespace, then dispatches on the first character.  Integer numerals
only; floats do not occur in the module's data model. The fuel bounds
the nesting depth and any fuel above the input length suffices. -/
def parseVal : Nat → List Char → Option (PyValue × List Char)
  | 0, _ => Option.none
  | fuel + 1, cs0 =>
    match skipWs cs0 with
    | [] => Option.none
    | c :: rest =>
      if c = 'n' then
        match rest with
        | 'u' :: 'l' :: 'l' :: r => some (.pyNone, r)
        | _ => Option.none
      else if c = 't' then
        match rest with
        | 'r' :: 'u' :: 'e' :: r => some (.bool true, r)
        | _ => Option.none
      else if c = 'f' then
        match rest with
        | 'a' :: 'l' :: 's' :: 'e' :: r => some (.bool false, r)
        | _ => Option.none
      else if c = '"' then
        Option.map (fun p => (PyValue.str (String.mk p.1), p.2)) (parseStrBody rest)
      else if c = '[' then
        match skipWs rest with
        | ']' :: r2 => some (.list .nil, r2)
        | _ => Option.map (fun p => (PyValue.list p.1, p.2)) (parseElems fuel rest)
      else if c = '\x7b' then
        match skipWs rest with
        | '\x7d' :: r2 => some (.dict .nil, r2)
        | _ => Option.map (fun p => (PyValue.dict p.1, p.2)) (parsePairs fuel rest)
      else if c = '-' then
        Option.map (fun p => (PyValue.int (-(p.1 : Int)), p.2)) (parseNat rest)
      else if c.isDigit then
        Option.map (fun p => (PyValue.int (p.1 : Int), p.2)) (parseNat (c :: rest))
      else Option.none

/-- Elements of a nonempty JSON array after the opening bracket. -/
def parseElems : Nat → List Char → Option (PyList × List Char)
  | 0, _ => Option.none
  | fuel + 1, cs =>
    match parseVal fuel cs with
    | Option.none => Option.none
    | some (v, r1) =>
      match skipWs r1 with
      | ',' :: r2 =>
        match parseElems fuel r2 with
        | Option.none => Option.none
        | some (xs, r3) => some (.cons v xs, r3)
      | ']' :: r2 => some (.cons v .nil, r2)
      | _ => Option.none

/-- Members of a nonempty JSON object after the opening brace. -/
def parsePairs : Nat → List Char → Option (PyDict × List Char)
  | 0, _ => Option.none
  | fuel + 1, cs =>
    match skipWs cs with
    | '"' :: r0 =>
      match parseStrBody r0 with
      | Option.none => Option.none
      | some (k, r1) =>
        match skipWs r1 with
        | ':' :: r2 =>
          match parseVal fuel r2 with
          | Option.none => Option.none
          | some (v, r3) =>
            match skipWs r3 with
            | ',' :: r4 =>
              match parsePairs fuel r4 with
              | Option.none => Option.none
              | some (kvs, r5) => some (.cons (String.mk k) v kvs, r5)
            | '\x7d' :: r4 => some (.cons (String.mk k) v .nil, r4)
            | _ => Option.none
        | _ => Option.none
    | _ => Option.none
end

/-- Model of `json.loads(raw)`: a non-string argument raises
`TypeError` as in Python 2; otherwise the text must hold exactly one
JSON value, else `ValueError` is raised. -/
def json.loads (raw : PyValue) : Except PyErr PyValue :=
  match raw with
  | .str s =>
    match parseVal (s.data.length + 1) s.data with
    | some (v, rest) =>
      if skipWs rest = [] then .ok v
      else .error (.valueError "Extra data")
    | Option.none => .error (.valueError "No JSON object could be decoded")
  | _ => .error (.typeError "expected string or buffer")

/-- Split a character sequence into lines at newline characters. -/
def splitLines : List Char → List (List Char)
  | [] => [[]]
  | c :: rest =>
    match splitLines rest with
    | [] => [[c]]
    | l :: ls => if c = '\n' then [] :: l :: ls else (c :: l) :: ls

/-- Python-style whitespace test used by `str.strip()`. -/
def isPySpace (c : Char) : Bool :=
  c == ' ' || c == '\t' || c == '\n' || c == '\r' || c == '\x0b' || c == '\x0c'

/-- Model of `str.strip()`: remove leading and trailing whitespace. -/
def strip (cs : List Char) : List Char :=
  ((cs.dropWhile isPySpace).reverse.dropWhile isPySpace).reverse

/-- Sections parsed so far: section name, then options in file order. -/
abbrev IniSections := List (String × List (String × String))

/-- Record an option under the named section.  `config.optionxform`
is set to `str` in the source, so the option name is stored exactly
as written (the library default would lower-case it). -/
def addOption (secs : IniSections) (sec k v : String) : IniSections :=
  secs.map (fun p => if p.1 = sec then (p.1, p.2 ++ [(k, v)]) else p)

/-- Line-by-line state machine of the documented `read_string`
semantics followed by `sections()`/`options()`/`get()`, backing the
intended-behavior definition `DotIni.preIntended`: blank and comment lines are
skipped, `[name]` opens a section, `key=value` or `key: value` adds an
option to the current section (both sides stripped).  Continuation
lines, `%` interpolation and the `DEFAULT` section are not exercised
by the module's data and are not modelled. -/
def iniLines : IniSections → Option String → List (List Char) → Except PyErr IniSections
  | secs, _, [] => .ok secs
  | secs, cur, line :: rest =>
    let l := strip line
    if l = [] then iniLines secs cur rest
    else if l.head? = some '#' || l.head? = some ';' then iniLines secs cur rest
    else
      match l with
      | '[' :: t =>
        if t.contains ']' then
          let nm := String.mk (t.takeWhile (fun c => !(c == ']')))
          if secs.any (fun p => p.1 == nm) then iniLines secs (some nm) rest
          else iniLines (secs ++ [(nm, [])]) (some nm) rest
        else .error (.configError "File contains parsing errors")
      | _ =>
        match cur with
        | Option.none => .error (.configError "File contains no section headers")
        | some sec =>
          if l.contains '=' then
            let k := String.mk (strip (l.takeWhile (fun c => !(c == '='))))
            let v := String.mk (strip ((l.dropWhile (fun c => !(c == '='))).drop 1))
            iniLines (addOption secs sec k v) cur rest
          else if l.contains ':' then
            let k := String.mk (strip (l.takeWhile (fun c => !(c == ':'))))
            let v := String.mk (strip ((l.dropWhile (fun c => !(c == ':'))).drop 1))
            iniLines (addOption secs sec k v) cur rest
          else .error (.configError "File contains parsing errors")

/-- Parse configuration text into sections with case-preserved option
names. -/
def iniParse (cs : List Char) : Except PyErr IniSections :=
  iniLines [] Option.none (splitLines cs)

/-- Inner dict of one section's options. -/
def optsToDict : List (String × String) → PyDict
  | [] => .nil
  | (k, v) :: rest => .cons k (.str v) (optsToDict rest)

/-- The two-level dictionary built by the conversion loop in
`DotIni.pre`: outer keys are section names, inner keys option names. -/
def secsToDict : IniSections → PyDict
  | [] => .nil
  | (name, opts) :: rest => .cons name (.dict (optsToDict opts)) (secsToDict rest)

/-- `DotTxt.pre`: `return str(raw)`. -/
def DotTxt.pre (raw : PyValue) : Except PyErr PyValue :=
  .ok (.str (pyStr raw))

/-- `DotTxt.post`: `return str(raw)`. -/
def DotTxt.post (raw : PyValue) : Except PyErr PyValue :=
  .ok (.str (pyStr raw))

/-- `DotJson.pre`: `json.dumps(raw, indent=4)`; on `ValueError` the
exception is logged and the empty dict is substituted; on `TypeError`
a wrapped `TypeError` carrying the offending value and the cause is
raised; any other exception would propagate unchanged. -/
def DotJson.pre (raw : PyValue) : Except PyErr PyValue :=
  match json.dumps raw with
  | .ok processed => .ok (.str processed)
  | .error (.valueError _) => .ok (.dict .nil)
  | .error (.typeError e) =>
    .error (.typeError ("Data corrupt | " ++ pyStr raw ++ "\n" ++ e))
  | .error e => .error e

/-- Diagnostic entries `DotJson.pre` sends to `log.debug`: exactly the
message of a caught `ValueError`. -/
def DotJson.preLog (raw : PyValue) : List String :=
  match json.dumps raw with
  | .error (.valueError e) => [e]
  | _ => []

/-- `DotJson.post`: `return json.loads(raw)`. -/
def DotJson.post (raw : PyValue) : Except PyErr PyValue :=
  json.loads raw

/-- `DotIni.pre`: the method constructs a `ConfigParser.ConfigParser()`
and immediately calls `config.read_string(raw)`.  The module is
Python 2 (`import ConfigParser`, Python 2 `print` statements), and
`read_string` is a Python 3.2+ API that the Python 2 `ConfigParser`
class does not have, so the attribute access raises `AttributeError`
for every input before any parsing happens.  The `optionxform`
assignment and the section/option conversion loop below the call are
unreachable. -/
def DotIni.pre (_raw : PyValue) : Except PyErr PyValue :=
  .error (.attributeError
    "ConfigParser instance has no attribute \x27read_string\x27")

/-- The transform `DotIni.pre` was written to compute, for comparison
with what the code does: deserialize with the documented `read_string`
semantics its call site assumes (with `optionxform = str`, so option
names keep their case), then run the section/option loop building the
nested dictionary.  The module never reaches this behavior (see
`DotIni.pre`). -/
def DotIni.preIntended (raw : PyValue) : Except PyErr PyValue :=
  match raw with
  | .str s =>
    match iniParse s.data with
    | .ok secs => .ok (.dict (secsToDict secs))
    | .error e => .error e
  | _ => .error (.typeError "argument must be a string")

/-- `DotIni.post`: the body is `pass`, so the call returns `None`. -/
def DotIni.post (_raw : PyValue) : Except PyErr PyValue :=
  .ok .pyNone

/-- `DotGdoc.pre`: `raise NotImplementedError` is the first statement;
the download code after it is unreachable. -/
def DotGdoc.pre (_raw : PyValue) : Except PyErr PyValue :=
  .error .notImplementedError

/-- `DotGdoc.post`: `raise NotImplementedError` is the first
statement; the upload code after it is unreachable. -/
def DotGdoc.post (_raw : PyValue) : Except PyErr PyValue :=
  .error .notImplementedError

/-- The two-operation contract each format class implements. -/
structure Format where
  pre : PyValue → Except PyErr PyValue
  post : PyValue → Except PyErr PyValue

/-- The `DotTxt` handler as registered. -/
def DotTxt.handler : Format := ⟨DotTxt.pre, DotTxt.post⟩

/-- The `DotJson` handler as registered. -/
def DotJson.handler : Format := ⟨DotJson.pre, DotJson.post⟩

/-- The `DotIni` handler as registered. -/
def DotIni.handler : Format := ⟨DotIni.pre, DotIni.post⟩

/-- The `DotGdoc` handler as registered. -/
def DotGdoc.handler : Format := ⟨DotGdoc.pre, DotGdoc.post⟩

/-- The module-level registry `mapping`. -/
def mapping : List (String × Format) :=
  [(".txt", DotTxt.handler), (".json", DotJson.handler),
   (".ini", DotIni.handler), (".gdoc", DotGdoc.handler)]

/-- `preprocess(raw, format)`: look the handler up and run its `pre`.
The source rebinds `format = mapping.get(format)` before testing it,
so when the lookup misses, the `ValueError` message interpolates the
rebound value `None`, not the requested identifier. -/
def preprocess (raw : PyValue) (format : String) : Except PyErr PyValue :=
  match List.lookup format mapping with
  | Option.none =>
    .error (.valueError ("Format \"" ++ pyStr .pyNone ++ "\" not supported"))
  | some f => f.pre raw

/-- `postprocess(raw, format)`: look the handler up and run its
`post`; the failure branch shares `preprocess`'s rebinding slip. -/
def postprocess (raw : PyValue) (format : String) : Except PyErr PyValue :=
  match List.lookup format mapping with
  | Option.none =>
    .error (.valueError ("Format \"" ++ pyStr .pyNone ++ "\" not supported"))
  | some f => f.post raw

/-- Whether a value is a Python string. -/
def PyValue.isStr : PyValue → Bool
  | .str _ => true
  | _ => false

/-- Characters that `json.dumps` emits verbatim and the scanner reads
back verbatim: printable ASCII excluding the quote and the backslash. -/
def safeChar (c : Char) : Bool :=
  decide (32 ≤ c.toNat) && decide (c.toNat ≤ 126) && !(c == '"') && !(c == '\\')

/-- A string whose serialized form needs no escape sequences. -/
def safeStr (s : String) : Bool := s.data.all safeChar

mutual
/-- Representative values of the structured key/value format: built
from escape-free strings, integers, booleans, `None`, lists and
string-keyed dicts; in particular serializable, and `json.loads`
recovers them exactly. -/
def repJson : PyValue → Bool
  | .str s => safeStr s
  | .int _ => true
  | .bool _ => true
  | .pyNone => true
  | .selfRef => false
  | .obj _ => false
  | .list xs => repJsonL xs
  | .dict kvs => repJsonD kvs

/-- All elements representative. -/
def repJsonL : PyList → Bool
  | .nil => true
  | .cons x xs => repJson x && repJsonL xs

/-- All keys escape-free and all values representative. -/
def repJsonD : PyDict → Bool
  | .nil => true
  | .cons k v kvs => safeStr k && repJson v && repJsonD kvs
end

/-- Representative values appropriate to a registered format, for the
round-trip law: any string for the plain-text format, any
`repJson` value for the structured key/value format. -/
def RepresentativeFor (format : String) (v : PyValue) : Prop :=
  (format = ".txt" ∧ v.isStr = true) ∨ (format = ".json" ∧ repJson v = true)

mutual
/-- Scanner fuel sufficient to parse the serialized form of a value:
one step for the value itself plus what its children need. -/
def vfuel : PyValue → Nat
  | .str _ => 1
  | .int _ => 1
  | .bool _ => 1
  | .pyNone => 1
  | .selfRef => 1
  | .obj _ => 1
  | .list xs => 1 + lfuel xs
  | .dict kvs => 1 + dfuel kvs

/-- Fuel sufficient for `parseElems` on serialized elements. -/
def lfuel : PyList → Nat
  | .nil => 1
  | .cons x xs => 1 + max (vfuel x) (lfuel xs)

/-- Fuel sufficient for `parsePairs` on serialized items. -/
def dfuel : PyDict → Nat
  | .nil => 1
  | .cons _ v kvs => 1 + max (vfuel v) (dfuel kvs)
end

/-- Input boundary after a serialized value: inside `dumps` output a
value is followed by a separator comma or a newline (or nothing at top
level), so the scanner cannot read past it. -/
def bnd : List Char → Prop
  | [] => True
  | c :: _ => c = ',' ∨ c = '\n'

/-- Round-trip statement for one value: the scanner, run on the
serialized form followed by any boundary-safe remainder, returns
exactly the value and the remainder. -/
def RTP (v : PyValue) : Prop :=
  repJson v = true → ∀ lvl fuel rest, vfuel v ≤ fuel → bnd rest →
    parseVal fuel (dumpOk v lvl ++ rest) = some (v, rest)

/-- Round-trip statement for the element list of a nonempty array. -/
def RTQ (xs : PyList) : Prop :=
  repJsonL xs = true → xs ≠ .nil → ∀ lvl fuel rest, lfuel xs ≤ fuel →
    parseElems fuel (dumpElems xs (lvl + 1) ++ '\n' :: (indSp lvl ++ ']' :: rest)) =
      some (xs, rest)

/-- Round-trip statement for the item list of a nonempty object. -/
def RTR (kvs : PyDict) : Prop :=
  repJsonD kvs = true → kvs ≠ .nil → ∀ lvl fuel rest, dfuel kvs ≤ fuel →
    parsePairs fuel (dumpPairs kvs (lvl + 1) ++ '\n' :: (indSp lvl ++ '\x7d' :: rest)) =
      some (kvs, rest)

/-- Simultaneous structural induction over Python values, lists and
dicts, packaged from the mutual recursors. -/
theorem pyInd {P : PyValue → Prop} {Q : PyList → Prop} {R : PyDict → Prop}
    (hstr : ∀ s, P (.str s)) (hint : ∀ n, P (.int n)) (hbool : ∀ b, P (.bool b))
    (hnone : P .pyNone) (hself : P .selfRef) (hobj : ∀ r, P (.obj r))
    (hlist : ∀ xs, Q xs → P (.list xs)) (hdict : ∀ kvs, R kvs → P (.dict kvs))
    (hnil : Q .nil) (hcons : ∀ x xs, P x → Q xs → Q (.cons x xs))
    (hdnil : R .nil) (hdcons : ∀ k v kvs, P v → R kvs → R (.cons k v kvs)) :
    (∀ v, P v) ∧ (∀ xs, Q xs) ∧ (∀ kvs, R kvs) :=
  ⟨fun v => PyValue.rec hstr hint hbool hnone hself hobj hlist hdict
      hnil hcons hdnil hdcons v,
   fun xs => PyList.rec hstr hint hbool hnone hself hobj hlist hdict
      hnil hcons hdnil hdcons xs,
   fun kvs => PyDict.rec hstr hint hbool hnone hself hobj hlist hdict
      hnil hcons hdnil hdcons kvs⟩

theorem skipWs_nil : skipWs [] = [] := rfl

theorem skipWs_cons_ws {c : Char} (h : isWs c = true) (cs : List Char) :
    skipWs (c :: cs) = skipWs cs := by
  simp [skipWs, List.dropWhile_cons, h]

theorem skipWs_cons_not_ws {c : Char} (h : isWs c = false) (cs : List Char) :
    skipWs (c :: cs) = c :: cs := by
  simp [skipWs, List.dropWhile_cons, h]

theorem skipWs_append_ws {ws : List Char} (h : ∀ c ∈ ws, isWs c = true)
    (cs : List Char) : skipWs (ws ++ cs) = skipWs cs := by
  induction ws with
  | nil => rfl
  | cons c t ih =>
    rw [List.cons_append, skipWs_cons_ws (h c (by simp))]
    exact ih (fun d hd => h d (by simp [hd]))

theorem indSp_ws (lvl : Nat) : ∀ c ∈ indSp lvl, isWs c = true := by
  intro c hc
  have : c = ' ' := List.eq_of_mem_replicate hc
  simp [this, isWs]

theorem skipWs_indSp (lvl : Nat) (cs : List Char) :
    skipWs (indSp lvl ++ cs) = skipWs cs :=
  skipWs_append_ws (indSp_ws lvl) cs

theorem digitChar_facts : ∀ d, d < 10 →
    (digitChar d).isDigit = true ∧ dval (digitChar d) = d := by decide

theorem natDigitsAux_spec : ∀ fuel n, n < fuel →
    natDigitsAux fuel n ≠ [] ∧ (∀ c ∈ natDigitsAux fuel n, c.isDigit = true) ∧
    ∀ acc, (natDigitsAux fuel n).foldl (fun a c => 10 * a + dval c) acc =
      acc * 10 ^ (natDigitsAux fuel n).length + n := by
  intro fuel
  induction fuel with
  | zero => intro n hn; omega
  | succ f ih =>
    intro n hn
    by_cases h10 : n < 10
    · refine ⟨by simp [natDigitsAux, h10], ?_, ?_⟩
      · intro c hc
        simp only [natDigitsAux, if_pos h10, List.mem_singleton] at hc
        exact hc ▸ (digitChar_facts n h10).1
      · intro acc
        simp [natDigitsAux, if_pos h10, (digitChar_facts n h10).2]
        ring
    · have hdiv : n / 10 < f := by
        have := Nat.div_lt_self (by omega : 0 < n) (by omega : 1 < 10)
        omega
      obtain ⟨hne, hdig, hfold⟩ := ih (n / 10) hdiv
      refine ⟨by simp [natDigitsAux, if_neg h10], ?_, ?_⟩
      · intro c hc
        simp only [natDigitsAux, if_neg h10, List.mem_append, List.mem_singleton] at hc
        rcases hc with hc | hc
        · exact hdig c hc
        · exact hc ▸ (digitChar_facts (n % 10) (Nat.mod_lt n (by omega))).1
      · intro acc
        simp only [natDigitsAux, if_neg h10, List.foldl_append, List.length_append,
          List.foldl_cons, List.foldl_nil, List.length_cons, List.length_nil]
        rw [hfold acc, (digitChar_facts (n % 10) (Nat.mod_lt n (by omega))).2]
        simp only [Nat.zero_add]
        rw [Nat.pow_succ]
        have hmul : 10 * (acc * 10 ^ (natDigitsAux f (n / 10)).length + n / 10) + n % 10 =
            acc * (10 ^ (natDigitsAux f (n / 10)).length * 10) + (10 * (n / 10) + n % 10) := by
          ring
        rw [hmul, Nat.div_add_mod]

theorem natDigits_ne_nil (n : Nat) : natDigits n ≠ [] :=
  (natDigitsAux_spec (n + 1) n (by omega)).1

theorem natDigits_all_digits (n : Nat) : ∀ c ∈ natDigits n, c.isDigit = true :=
  (natDigitsAux_spec (n + 1) n (by omega)).2.1

theorem digitsToNat_natDigits (n : Nat) : digitsToNat (natDigits n) = n := by
  have h := ((natDigitsAux_spec (n + 1) n (by omega)).2.2) 0
  simpa [digitsToNat, natDigits] using h

theorem takeWhile_append_of_all {p : Char → Bool} (l rest : List Char)
    (hl : ∀ c ∈ l, p c = true)
    (hr : ∀ r rs, rest = r :: rs → p r = false) :
    (l ++ rest).takeWhile p = l ∧ (l ++ rest).dropWhile p = rest := by
  induction l with
  | nil =>
    simp only [List.nil_append]
    cases rest with
    | nil => simp
    | cons r rs => simp [List.takeWhile_cons, List.dropWhile_cons, hr r rs rfl]
  | cons c t ih =>
    obtain ⟨h1, h2⟩ := ih (fun d hd => hl d (by simp [hd]))
    simp [List.takeWhile_cons, List.dropWhile_cons, hl c (by simp), h1, h2]

theorem parseNat_natDigits (n : Nat) (rest : List Char)
    (hr : ∀ r rs, rest = r :: rs → r.isDigit = false) :
    parseNat (natDigits n ++ rest) = some (n, rest) := by
  obtain ⟨h1, h2⟩ :=
    takeWhile_append_of_all (natDigits n) rest (natDigits_all_digits n) hr
  rw [parseNat, h1, h2]
  cases hd : natDigits n with
  | nil => exact absurd hd (natDigits_ne_nil n)
  | cons c cs =>
    show some (digitsToNat (c :: cs), rest) = some (n, rest)
    rw [← hd, digitsToNat_natDigits n]

theorem isDigit_toNat {c : Char} (h : c.isDigit = true) :
    48 ≤ c.toNat ∧ c.toNat ≤ 57 := by
  simp only [Char.isDigit, ge_iff_le, Bool.and_eq_true, decide_eq_true_eq] at h
  exact ⟨UInt32.le_toNat_of_le (by decide) h.1, UInt32.toNat_le_of_le (by decide) h.2⟩

theorem digit_facts {c : Char} (h : c.isDigit = true) :
    isWs c = false ∧ c ≠ ']' ∧ c ≠ '\x7d' ∧ c ≠ 'n' ∧ c ≠ 't' ∧ c ≠ 'f' ∧
    c ≠ '"' ∧ c ≠ '[' ∧ c ≠ '\x7b' ∧ c ≠ '-' := by
  obtain ⟨h48, h57⟩ := isDigit_toNat h
  refine ⟨?_, ?_⟩
  · simp only [isWs, Bool.or_eq_false_iff, beq_eq_false_iff_ne, ne_eq]
    refine ⟨⟨⟨?_, ?_⟩, ?_⟩, ?_⟩ <;>
      (intro hc; subst hc; exact absurd h48 (by decide))
  · refine ⟨?_, ?_, ?_, ?_, ?_, ?_, ?_, ?_, ?_⟩ <;>
      (intro hc; subst hc;
       first
       | exact absurd h48 (by decide)
       | exact absurd h57 (by decide))

theorem natDigits_head (n : Nat) :
    ∃ c cs, natDigits n = c :: cs ∧ c.isDigit = true := by
  cases hd : natDigits n with
  | nil => exact absurd hd (natDigits_ne_nil n)
  | cons c cs =>
    exact ⟨c, cs, rfl, natDigits_all_digits n c (by rw [hd]; simp)⟩

theorem parseStrBody_safe (s : List Char) (hs : ∀ c ∈ s, safeChar c = true)
    (rest : List Char) : parseStrBody (s ++ '"' :: rest) = some (s, rest) := by
  induction s with
  | nil =>
    rw [List.nil_append, parseStrBody.eq_def]
    simp
  | cons c t ih =>
    have hc := hs c (by simp)
    have hq : ¬(c = '"') := by rintro rfl; simp [safeChar] at hc
    have hb : ¬(c = '\\') := by rintro rfl; simp [safeChar] at hc
    rw [List.cons_append, parseStrBody.eq_def]
    simp only [if_neg hq, if_neg hb]
    rw [ih (fun d hd => hs d (by simp [hd]))]

theorem parseVal_ws (fuel : Nat) (ws cs : List Char)
    (h : ∀ c ∈ ws, isWs c = true) :
    parseVal fuel (ws ++ cs) = parseVal fuel cs := by
  cases fuel with
  | zero => rfl
  | succ f =>
    simp only [parseVal]
    rw [skipWs_append_ws h]

theorem parseElems_ws (fuel : Nat) (ws cs : List Char)
    (h : ∀ c ∈ ws, isWs c = true) :
    parseElems fuel (ws ++ cs) = parseElems fuel cs := by
  cases fuel with
  | zero => rfl
  | succ f =>
    simp only [parseElems]
    rw [parseVal_ws f ws cs h]

theorem parsePairs_ws (fuel : Nat) (ws cs : List Char)
    (h : ∀ c ∈ ws, isWs c = true) :
    parsePairs fuel (ws ++ cs) = parsePairs fuel cs := by
  cases fuel with
  | zero => rfl
  | succ f =>
    simp only [parsePairs]
    rw [skipWs_append_ws h]

theorem vfuel_pos (v : PyValue) : 1 ≤ vfuel v := by
  cases v <;> simp [vfuel]

theorem lfuel_pos (xs : PyList) : 1 ≤ lfuel xs := by
  cases xs <;> simp [lfuel]

theorem dfuel_pos (kvs : PyDict) : 1 ≤ dfuel kvs := by
  cases kvs <;> simp [dfuel]

theorem parseVal_null (f : Nat) (cs r : List Char)
    (h : skipWs cs = 'n' :: 'u' :: 'l' :: 'l' :: r) :
    parseVal (f + 1) cs = some (.pyNone, r) := by
  simp only [parseVal, h]
  simp

theorem parseVal_bool (f : Nat) (cs r : List Char) (b : Bool)
    (h : skipWs cs = (if b then 't' :: 'r' :: 'u' :: 'e' :: r
                      else 'f' :: 'a' :: 'l' :: 's' :: 'e' :: r)) :
    parseVal (f + 1) cs = some (.bool b, r) := by
  cases b
  · rw [if_neg (by decide)] at h
    simp only [parseVal, h]
    simp
  · rw [if_pos (by decide)] at h
    simp only [parseVal, h]
    simp

theorem parseVal_quote (f : Nat) (cs rest : List Char)
    (h : skipWs cs = '"' :: rest) :
    parseVal (f + 1) cs =
      Option.map (fun p => (PyValue.str (String.mk p.1), p.2)) (parseStrBody rest) := by
  simp only [parseVal, h]
  simp

theorem parseVal_listElems (f : Nat) (cs r t : List Char) (c : Char)
    (h1 : skipWs cs = '[' :: r) (h2 : skipWs r = c :: t) (hc : c ≠ ']') :
    parseVal (f + 1) cs =
      Option.map (fun p => (PyValue.list p.1, p.2)) (parseElems f r) := by
  simp only [parseVal, h1, Char.reduceEq, reduceIte]
  rw [h2]
  split
  · rename_i heq
    injection heq with hx
    exact absurd hx hc
  · rfl

theorem parseVal_dictPairs (f : Nat) (cs r t : List Char) (c : Char)
    (h1 : skipWs cs = '\x7b' :: r) (h2 : skipWs r = c :: t) (hc : c ≠ '\x7d') :
    parseVal (f + 1) cs =
      Option.map (fun p => (PyValue.dict p.1, p.2)) (parsePairs f r) := by
  simp only [parseVal, h1, Char.reduceEq, reduceIte]
  rw [h2]
  split
  · rename_i heq
    injection heq with hx
    exact absurd hx hc
  · rfl

theorem parseVal_digit (f : Nat) (cs r : List Char) (c : Char)
    (h1 : skipWs cs = c :: r) (hc : c.isDigit = true) :
    parseVal (f + 1) cs =
      Option.map (fun p => (PyValue.int (p.1 : Int), p.2)) (parseNat (c :: r)) := by
  obtain ⟨-, -, -, hn, ht, hf, hq, hlb, hlc, hm⟩ := digit_facts hc
  simp only [parseVal, h1, if_neg hn, if_neg ht, if_neg hf, if_neg hq,
    if_neg hlb, if_neg hlc, if_neg hm, if_pos hc]

theorem parseVal_minus (f : Nat) (cs r : List Char)
    (h1 : skipWs cs = '-' :: r) :
    parseVal (f + 1) cs =
      Option.map (fun p => (PyValue.int (-(p.1 : Int)), p.2)) (parseNat r) := by
  simp only [parseVal, h1]
  simp

theorem parseVal_emptyList (f : Nat) (cs r r2 : List Char)
    (h1 : skipWs cs = '[' :: r) (h2 : skipWs r = ']' :: r2) :
    parseVal (f + 1) cs = some (.list .nil, r2) := by
  simp only [parseVal, h1, Char.reduceEq, reduceIte, h2]

theorem parseVal_emptyDict (f : Nat) (cs r r2 : List Char)
    (h1 : skipWs cs = '\x7b' :: r) (h2 : skipWs r = '\x7d' :: r2) :
    parseVal (f + 1) cs = some (.dict .nil, r2) := by
  simp only [parseVal, h1, Char.reduceEq, reduceIte, h2]

theorem parseElems_last (f : Nat) (cs r1 r2 : List Char) (v : PyValue)
    (h1 : parseVal f cs = some (v, r1)) (h2 : skipWs r1 = ']' :: r2) :
    parseElems (f + 1) cs = some (.cons v .nil, r2) := by
  simp only [parseElems, h1, h2]

theorem parseElems_more (f : Nat) (cs r1 r2 r3 : List Char) (v : PyValue)
    (xs : PyList) (h1 : parseVal f cs = some (v, r1))
    (h2 : skipWs r1 = ',' :: r2) (h3 : parseElems f r2 = some (xs, r3)) :
    parseElems (f + 1) cs = some (.cons v xs, r3) := by
  simp only [parseElems, h1, h2, h3]

theorem parsePairs_last (f : Nat) (cs r0 k r1 r2 r3 r4 : List Char) (v : PyValue)
    (h0 : skipWs cs = '"' :: r0) (hk : parseStrBody r0 = some (k, r1))
    (h1 : skipWs r1 = ':' :: r2) (hv : parseVal f r2 = some (v, r3))
    (h2 : skipWs r3 = '\x7d' :: r4) :
    parsePairs (f + 1) cs = some (.cons (String.mk k) v .nil, r4) := by
  simp only [parsePairs, h0, hk, h1, hv, h2]

theorem parsePairs_more (f : Nat) (cs r0 k r1 r2 r3 r4 r5 : List Char) (v : PyValue)
    (kvs : PyDict) (h0 : skipWs cs = '"' :: r0) (hk : parseStrBody r0 = some (k, r1))
    (h1 : skipWs r1 = ':' :: r2) (hv : parseVal f r2 = some (v, r3))
    (h2 : skipWs r3 = ',' :: r4) (h3 : parsePairs f r4 = some (kvs, r5)) :
    parsePairs (f + 1) cs = some (.cons (String.mk k) v kvs, r5) := by
  simp only [parsePairs, h0, hk, h1, hv, h2, h3]

theorem dumpOk_head (v : PyValue) (hv : repJson v = true) (lvl : Nat) :
    ∃ c t, dumpOk v lvl = c :: t ∧ isWs c = false ∧ c ≠ ']' ∧ c ≠ '\x7d' := by
  cases v with
  | str s =>
    exact ⟨'"', s.data ++ ['"'], by simp [dumpOk], by decide, by decide, by decide⟩
  | int n =>
    by_cases hneg : n < 0
    · exact ⟨'-', natDigits n.natAbs, by simp [dumpOk, intChars, if_pos hneg],
        by decide, by decide, by decide⟩
    · obtain ⟨c, cs, hd, hdig⟩ := natDigits_head n.toNat
      obtain ⟨hws, hrb, hcb, -⟩ := digit_facts hdig
      exact ⟨c, cs, by simp [dumpOk, intChars, if_neg hneg, hd], hws, hrb, hcb⟩
  | bool b =>
    cases b
    · exact ⟨'f', ['a', 'l', 's', 'e'], by simp [dumpOk], by decide, by decide, by decide⟩
    · exact ⟨'t', ['r', 'u', 'e'], by simp [dumpOk], by decide, by decide, by decide⟩
  | pyNone => exact ⟨'n', ['u', 'l', 'l'], by simp [dumpOk], by decide, by decide, by decide⟩
  | selfRef => simp [repJson] at hv
  | obj r => simp [repJson] at hv
  | list xs =>
    cases xs with
    | nil => exact ⟨'[', [']'], by simp [dumpOk], by decide, by decide, by decide⟩
    | cons x ys =>
      exact ⟨'[', '\n' :: (dumpElems (.cons x ys) (lvl + 1) ++ '\n' :: (indSp lvl ++ [']'])),
        by simp [dumpOk], by decide, by decide, by decide⟩
  | dict kvs =>
    cases kvs with
    | nil => exact ⟨'\x7b', ['\x7d'], by simp [dumpOk], by decide, by decide, by decide⟩
    | cons k v2 kvs2 =>
      exact ⟨'\x7b',
        '\n' :: (dumpPairs (.cons k v2 kvs2) (lvl + 1) ++ '\n' :: (indSp lvl ++ ['\x7d'])),
        by simp [dumpOk], by decide, by decide, by decide⟩

theorem bnd_not_digit {rest : List Char} (h : bnd rest) :
    ∀ r rs, rest = r :: rs → r.isDigit = false := by
  intro r rs hr
  subst hr
  simp only [bnd] at h
  rcases h with h | h <;> subst h <;> decide

theorem string_mk_data (s : String) : String.mk s.data = s := rfl

theorem skipWs_dumpElems (y : PyValue) (ys : PyList) (hy : repJson y = true)
    (lvl : Nat) (Z : List Char) :
    ∃ c t, skipWs (dumpElems (.cons y ys) lvl ++ Z) = c :: t ∧ c ≠ ']' ∧ c ≠ '\x7d' := by
  obtain ⟨c, t, hd, hws, h1, h2⟩ := dumpOk_head y hy lvl
  cases ys with
  | nil =>
    refine ⟨c, t ++ Z, ?_, h1, h2⟩
    simp only [dumpElems, List.append_assoc]
    rw [skipWs_indSp, hd, List.cons_append, skipWs_cons_not_ws hws]
  | cons y2 ys2 =>
    refine ⟨c, t ++ (',' :: ' ' :: '\n' :: (dumpElems (.cons y2 ys2) lvl ++ Z)), ?_, h1, h2⟩
    simp only [dumpElems, List.append_assoc, List.cons_append]
    rw [skipWs_indSp, hd, List.cons_append, skipWs_cons_not_ws hws]

theorem skipWs_dumpPairs (k : String) (v : PyValue) (kvs : PyDict)
    (lvl : Nat) (Z : List Char) :
    ∃ t, skipWs (dumpPairs (.cons k v kvs) lvl ++ Z) = '"' :: t := by
  cases kvs with
  | nil =>
    refine ⟨k.data ++ '"' :: ':' :: ' ' :: (dumpOk v lvl ++ Z), ?_⟩
    simp only [dumpPairs, List.append_assoc, List.cons_append]
    rw [skipWs_indSp, skipWs_cons_not_ws (by decide)]
  | cons k2 v2 kvs2 =>
    refine ⟨k.data ++ '"' :: ':' :: ' ' ::
      (dumpOk v lvl ++ ',' :: ' ' :: '\n' :: (dumpPairs (.cons k2 v2 kvs2) lvl ++ Z)), ?_⟩
    simp only [dumpPairs, List.append_assoc, List.cons_append]
    rw [skipWs_indSp, skipWs_cons_not_ws (by decide)]

theorem ws_nl : ∀ c ∈ ['\n'], isWs c = true := by decide

theorem ws_sp_nl : ∀ c ∈ [' ', '\n'], isWs c = true := by decide

theorem ws_sp : ∀ c ∈ [' '], isWs c = true := by decide

theorem roundtrip_all : (∀ v, RTP v) ∧ (∀ xs, RTQ xs) ∧ (∀ kvs, RTR kvs) := by
  apply pyInd
  case hstr =>
    intro str hrep lvl fuel rest hfuel hbnd
    simp only [repJson] at hrep
    cases fuel with
    | zero => have := vfuel_pos (PyValue.str str); omega
    | succ f =>
      have hshape : dumpOk (PyValue.str str) lvl ++ rest =
          '"' :: (str.data ++ '"' :: rest) := by
        simp [dumpOk]
      rw [hshape, parseVal_quote f _ _ (skipWs_cons_not_ws (by decide) _),
        parseStrBody_safe str.data (by simpa [safeStr, List.all_eq_true] using hrep) rest]
      simp [string_mk_data]
  case hint =>
    intro n hrep lvl fuel rest hfuel hbnd
    cases fuel with
    | zero => have := vfuel_pos (PyValue.int n); omega
    | succ f =>
      by_cases hneg : n < 0
      · have hshape : dumpOk (PyValue.int n) lvl ++ rest =
            '-' :: (natDigits n.natAbs ++ rest) := by
          simp [dumpOk, intChars, if_pos hneg]
        rw [hshape, parseVal_minus f _ _ (skipWs_cons_not_ws (by decide) _),
          parseNat_natDigits n.natAbs rest (bnd_not_digit hbnd)]
        have hn : -((n.natAbs : Int)) = n := by omega
        show some (PyValue.int (-(n.natAbs : Int)), rest) = some (PyValue.int n, rest)
        rw [hn]
      · obtain ⟨c, cs, hd, hdig⟩ := natDigits_head n.toNat
        have hshape : dumpOk (PyValue.int n) lvl ++ rest = c :: (cs ++ rest) := by
          simp [dumpOk, intChars, if_neg hneg, hd]
        rw [hshape, parseVal_digit f _ _ c
          (skipWs_cons_not_ws (digit_facts hdig).1 _) hdig]
        have hps : c :: (cs ++ rest) = natDigits n.toNat ++ rest := by simp [hd]
        rw [hps, parseNat_natDigits n.toNat rest (bnd_not_digit hbnd)]
        have hn : ((n.toNat : Nat) : Int) = n := by omega
        show some (PyValue.int ((n.toNat : Nat) : Int), rest) = some (PyValue.int n, rest)
        rw [hn]
  case hbool =>
    intro b hrep lvl fuel rest hfuel hbnd
    cases fuel with
    | zero => have := vfuel_pos (PyValue.bool b); omega
    | succ f =>
      cases b
      · have hshape : dumpOk (PyValue.bool false) lvl ++ rest =
            'f' :: 'a' :: 'l' :: 's' :: 'e' :: rest := by simp [dumpOk]
        rw [hshape, parseVal_bool f _ rest false
          (by rw [if_neg (by decide)]; exact skipWs_cons_not_ws (by decide) _)]
      · have hshape : dumpOk (PyValue.bool true) lvl ++ rest =
            't' :: 'r' :: 'u' :: 'e' :: rest := by simp [dumpOk]
        rw [hshape, parseVal_bool f _ rest true
          (by rw [if_pos (by decide)]; exact skipWs_cons_not_ws (by decide) _)]
  case hnone =>
    intro hrep lvl fuel rest hfuel hbnd
    cases fuel with
    | zero => have := vfuel_pos PyValue.pyNone; omega
    | succ f =>
      have hshape : dumpOk PyValue.pyNone lvl ++ rest =
          'n' :: 'u' :: 'l' :: 'l' :: rest := by simp [dumpOk]
      rw [hshape, parseVal_null f _ _ (skipWs_cons_not_ws (by decide) _)]
  case hself =>
    intro hrep
    simp [repJson] at hrep
  case hobj =>
    intro r hrep
    simp [repJson] at hrep
  case hlist =>
    intro xs hQ hrep lvl fuel rest hfuel hbnd
    simp only [repJson] at hrep
    cases fuel with
    | zero => have := vfuel_pos (PyValue.list xs); omega
    | succ f =>
      cases xs with
      | nil =>
        have hshape : dumpOk (PyValue.list .nil) lvl ++ rest = '[' :: ']' :: rest := by
          simp [dumpOk]
        rw [hshape, parseVal_emptyList f _ (']' :: rest) rest
          (skipWs_cons_not_ws (by decide) _) (skipWs_cons_not_ws (by decide) _)]
      | cons y ys =>
        have hshape : dumpOk (PyValue.list (.cons y ys)) lvl ++ rest =
            '[' :: ('\n' :: (dumpElems (.cons y ys) (lvl + 1) ++
              '\n' :: (indSp lvl ++ ']' :: rest))) := by
          simp [dumpOk, List.append_assoc]
        have hy : repJson y = true := by
          simp only [repJsonL, Bool.and_eq_true] at hrep
          exact hrep.1
        obtain ⟨c, t, hct, hc1, hc2⟩ := skipWs_dumpElems y ys hy (lvl + 1)
          ('\n' :: (indSp lvl ++ ']' :: rest))
        rw [hshape, parseVal_listElems f _ _ t c (skipWs_cons_not_ws (by decide) _)
          (by rw [skipWs_cons_ws (by decide)]; exact hct) hc1]
        rw [show ('\n' :: (dumpElems (.cons y ys) (lvl + 1) ++
            '\n' :: (indSp lvl ++ ']' :: rest))) =
            ['\n'] ++ (dumpElems (.cons y ys) (lvl + 1) ++
            '\n' :: (indSp lvl ++ ']' :: rest)) from rfl,
          parseElems_ws f ['\n'] _ ws_nl]
        have hlf : lfuel (.cons y ys) ≤ f := by
          simp only [vfuel] at hfuel
          omega
        rw [hQ hrep (fun h => PyList.noConfusion h) lvl f rest hlf]
        rfl
  case hdict =>
    intro kvs hR hrep lvl fuel rest hfuel hbnd
    simp only [repJson] at hrep
    cases fuel with
    | zero => have := vfuel_pos (PyValue.dict kvs); omega
    | succ f =>
      cases kvs with
      | nil =>
        have hshape : dumpOk (PyValue.dict .nil) lvl ++ rest = '\x7b' :: '\x7d' :: rest := by
          simp [dumpOk]
        rw [hshape, parseVal_emptyDict f _ ('\x7d' :: rest) rest
          (skipWs_cons_not_ws (by decide) _) (skipWs_cons_not_ws (by decide) _)]
      | cons k v kvs2 =>
        have hshape : dumpOk (PyValue.dict (.cons k v kvs2)) lvl ++ rest =
            '\x7b' :: ('\n' :: (dumpPairs (.cons k v kvs2) (lvl + 1) ++
              '\n' :: (indSp lvl ++ '\x7d' :: rest))) := by
          simp [dumpOk, List.append_assoc]
        obtain ⟨t, hct⟩ := skipWs_dumpPairs k v kvs2 (lvl + 1)
          ('\n' :: (indSp lvl ++ '\x7d' :: rest))
        rw [hshape, parseVal_dictPairs f _ _ t '"' (skipWs_cons_not_ws (by decide) _)
          (by rw [skipWs_cons_ws (by decide)]; exact hct) (by decide)]
        rw [show ('\n' :: (dumpPairs (.cons k v kvs2) (lvl + 1) ++
            '\n' :: (indSp lvl ++ '\x7d' :: rest))) =
            ['\n'] ++ (dumpPairs (.cons k v kvs2) (lvl + 1) ++
            '\n' :: (indSp lvl ++ '\x7d' :: rest)) from rfl,
          parsePairs_ws f ['\n'] _ ws_nl]
        have hdf : dfuel (.cons k v kvs2) ≤ f := by
          simp only [vfuel] at hfuel
          omega
        rw [hR hrep (fun h => PyDict.noConfusion h) lvl f rest hdf]
        rfl
  case hnil =>
    intro _ hne
    exact absurd rfl hne
  case hcons =>
    intro x xs hP hQ hrep hne lvl fuel rest hfuel
    simp only [repJsonL, Bool.and_eq_true] at hrep
    obtain ⟨hx, hxs⟩ := hrep
    cases fuel with
    | zero => have := lfuel_pos (PyList.cons x xs); omega
    | succ f =>
      have hvx : vfuel x ≤ f := by
        simp only [lfuel] at hfuel
        omega
      cases xs with
      | nil =>
        have hshape : dumpElems (.cons x .nil) (lvl + 1) ++
            '\n' :: (indSp lvl ++ ']' :: rest) =
            indSp (lvl + 1) ++ (dumpOk x (lvl + 1) ++
              ('\n' :: (indSp lvl ++ ']' :: rest))) := by
          simp [dumpElems, List.append_assoc]
        rw [hshape]
        have h1 : parseVal f (indSp (lvl + 1) ++ (dumpOk x (lvl + 1) ++
            ('\n' :: (indSp lvl ++ ']' :: rest)))) =
            some (x, '\n' :: (indSp lvl ++ ']' :: rest)) := by
          rw [parseVal_ws f _ _ (indSp_ws (lvl + 1))]
          exact hP hx (lvl + 1) f _ hvx (Or.inr rfl)
        have h2 : skipWs ('\n' :: (indSp lvl ++ ']' :: rest)) = ']' :: rest := by
          rw [skipWs_cons_ws (by decide), skipWs_indSp, skipWs_cons_not_ws (by decide)]
        exact parseElems_last f _ _ rest x h1 h2
      | cons y ys =>
        have hshape : dumpElems (.cons x (.cons y ys)) (lvl + 1) ++
            '\n' :: (indSp lvl ++ ']' :: rest) =
            indSp (lvl + 1) ++ (dumpOk x (lvl + 1) ++ (',' :: ' ' :: '\n' ::
              (dumpElems (.cons y ys) (lvl + 1) ++
                '\n' :: (indSp lvl ++ ']' :: rest)))) := by
          simp [dumpElems, List.append_assoc]
        rw [hshape]
        have h1 : parseVal f (indSp (lvl + 1) ++ (dumpOk x (lvl + 1) ++
            (',' :: ' ' :: '\n' :: (dumpElems (.cons y ys) (lvl + 1) ++
              '\n' :: (indSp lvl ++ ']' :: rest))))) =
            some (x, ',' :: ' ' :: '\n' :: (dumpElems (.cons y ys) (lvl + 1) ++
              '\n' :: (indSp lvl ++ ']' :: rest))) := by
          rw [parseVal_ws f _ _ (indSp_ws (lvl + 1))]
          exact hP hx (lvl + 1) f _ hvx (Or.inl rfl)
        have h3 : parseElems f (' ' :: '\n' :: (dumpElems (.cons y ys) (lvl + 1) ++
            '\n' :: (indSp lvl ++ ']' :: rest))) = some (.cons y ys, rest) := by
          rw [show (' ' :: '\n' :: (dumpElems (.cons y ys) (lvl + 1) ++
              '\n' :: (indSp lvl ++ ']' :: rest))) =
              [' ', '\n'] ++ (dumpElems (.cons y ys) (lvl + 1) ++
              '\n' :: (indSp lvl ++ ']' :: rest)) from rfl,
            parseElems_ws f [' ', '\n'] _ ws_sp_nl]
          have hlf : lfuel (.cons y ys) ≤ f := by
            simp only [lfuel] at hfuel ⊢
            omega
          exact hQ hxs (fun h => PyList.noConfusion h) lvl f rest hlf
        exact parseElems_more f _ _ _ rest x (.cons y ys) h1
          (skipWs_cons_not_ws (by decide) _) h3
  case hdnil =>
    intro _ hne
    exact absurd rfl hne
  case hdcons =>
    intro k v kvs hP hR hrep hne lvl fuel rest hfuel
    simp only [repJsonD, Bool.and_eq_true] at hrep
    obtain ⟨⟨hk, hv⟩, hkvs⟩ := hrep
    cases fuel with
    | zero => have := dfuel_pos (PyDict.cons k v kvs); omega
    | succ f =>
      have hvv : vfuel v ≤ f := by
        simp only [dfuel] at hfuel
        omega
      have hsafe : ∀ c ∈ k.data, safeChar c = true := by
        simpa [safeStr, List.all_eq_true] using hk
      cases kvs with
      | nil =>
        have hshape : dumpPairs (.cons k v .nil) (lvl + 1) ++
            '\n' :: (indSp lvl ++ '\x7d' :: rest) =
            indSp (lvl + 1) ++ ('"' :: (k.data ++ '"' :: (':' :: (' ' ::
              (dumpOk v (lvl + 1) ++ ('\n' :: (indSp lvl ++ '\x7d' :: rest))))))) := by
          simp [dumpPairs, List.append_assoc]
        rw [hshape]
        have h0 : skipWs (indSp (lvl + 1) ++ ('"' :: (k.data ++ '"' :: (':' :: (' ' ::
            (dumpOk v (lvl + 1) ++ ('\n' :: (indSp lvl ++ '\x7d' :: rest)))))))) =
            '"' :: (k.data ++ '"' :: (':' :: (' ' ::
              (dumpOk v (lvl + 1) ++ ('\n' :: (indSp lvl ++ '\x7d' :: rest)))))) := by
          rw [skipWs_indSp, skipWs_cons_not_ws (by decide)]
        have hkparse : parseStrBody (k.data ++ '"' :: (':' :: (' ' ::
            (dumpOk v (lvl + 1) ++ ('\n' :: (indSp lvl ++ '\x7d' :: rest)))))) =
            some (k.data, ':' :: (' ' ::
              (dumpOk v (lvl + 1) ++ ('\n' :: (indSp lvl ++ '\x7d' :: rest))))) :=
          parseStrBody_safe k.data hsafe _
        have hvparse : parseVal f (' ' ::
            (dumpOk v (lvl + 1) ++ ('\n' :: (indSp lvl ++ '\x7d' :: rest)))) =
            some (v, '\n' :: (indSp lvl ++ '\x7d' :: rest)) := by
          rw [show (' ' :: (dumpOk v (lvl + 1) ++
              ('\n' :: (indSp lvl ++ '\x7d' :: rest)))) =
              [' '] ++ (dumpOk v (lvl + 1) ++
              ('\n' :: (indSp lvl ++ '\x7d' :: rest))) from rfl,
            parseVal_ws f [' '] _ ws_sp]
          exact hP hv (lvl + 1) f _ hvv (Or.inr rfl)
        have h2 : skipWs ('\n' :: (indSp lvl ++ '\x7d' :: rest)) = '\x7d' :: rest := by
          rw [skipWs_cons_ws (by decide), skipWs_indSp, skipWs_cons_not_ws (by decide)]
        rw [parsePairs_last f _ _ k.data _ _ _ rest v h0 hkparse
          (skipWs_cons_not_ws (by decide) _) hvparse h2, string_mk_data]
      | cons k2 v2 kvs2 =>
        have hshape : dumpPairs (.cons k v (.cons k2 v2 kvs2)) (lvl + 1) ++
            '\n' :: (indSp lvl ++ '\x7d' :: rest) =
            indSp (lvl + 1) ++ ('"' :: (k.data ++ '"' :: (':' :: (' ' ::
              (dumpOk v (lvl + 1) ++ (',' :: (' ' :: ('\n' ::
                (dumpPairs (.cons k2 v2 kvs2) (lvl + 1) ++
                  '\n' :: (indSp lvl ++ '\x7d' :: rest)))))))))) := by
          simp [dumpPairs, List.append_assoc]
        rw [hshape]
        have h0 : skipWs (indSp (lvl + 1) ++ ('"' :: (k.data ++ '"' :: (':' :: (' ' ::
            (dumpOk v (lvl + 1) ++ (',' :: (' ' :: ('\n' ::
              (dumpPairs (.cons k2 v2 kvs2) (lvl + 1) ++
                '\n' :: (indSp lvl ++ '\x7d' :: rest))))))))))) =
            '"' :: (k.data ++ '"' :: (':' :: (' ' ::
              (dumpOk v (lvl + 1) ++ (',' :: (' ' :: ('\n' ::
                (dumpPairs (.cons k2 v2 kvs2) (lvl + 1) ++
                  '\n' :: (indSp lvl ++ '\x7d' :: rest))))))))) := by
          rw [skipWs_indSp, skipWs_cons_not_ws (by decide)]
        have hkparse : parseStrBody (k.data ++ '"' :: (':' :: (' ' ::
            (dumpOk v (lvl + 1) ++ (',' :: (' ' :: ('\n' ::
              (dumpPairs (.cons k2 v2 kvs2) (lvl + 1) ++
                '\n' :: (indSp lvl ++ '\x7d' :: rest))))))))) =
            some (k.data, ':' :: (' ' ::
              (dumpOk v (lvl + 1) ++ (',' :: (' ' :: ('\n' ::
                (dumpPairs (.cons k2 v2 kvs2) (lvl + 1) ++
                  '\n' :: (indSp lvl ++ '\x7d' :: rest)))))))) :=
          parseStrBody_safe k.data hsafe _
        have hvparse : parseVal f (' ' ::
            (dumpOk v (lvl + 1) ++ (',' :: (' ' :: ('\n' ::
              (dumpPairs (.cons k2 v2 kvs2) (lvl + 1) ++
                '\n' :: (indSp lvl ++ '\x7d' :: rest))))))) =
            some (v, ',' :: (' ' :: ('\n' ::
              (dumpPairs (.cons k2 v2 kvs2) (lvl + 1) ++
                '\n' :: (indSp lvl ++ '\x7d' :: rest))))) := by
          rw [show (' ' :: (dumpOk v (lvl + 1) ++ (',' :: (' ' :: ('\n' ::
              (dumpPairs (.cons k2 v2 kvs2) (lvl + 1) ++
                '\n' :: (indSp lvl ++ '\x7d' :: rest))))))) =
              [' '] ++ (dumpOk v (lvl + 1) ++ (',' :: (' ' :: ('\n' ::
              (dumpPairs (.cons k2 v2 kvs2) (lvl + 1) ++
                '\n' :: (indSp lvl ++ '\x7d' :: rest)))))) from rfl,
            parseVal_ws f [' '] _ ws_sp]
          exact hP hv (lvl + 1) f _ hvv (Or.inl rfl)
        have h3 : parsePairs f (' ' :: ('\n' ::
            (dumpPairs (.cons k2 v2 kvs2) (lvl + 1) ++
              '\n' :: (indSp lvl ++ '\x7d' :: rest)))) =
            some (.cons k2 v2 kvs2, rest) := by
          rw [show (' ' :: ('\n' :: (dumpPairs (.cons k2 v2 kvs2) (lvl + 1) ++
              '\n' :: (indSp lvl ++ '\x7d' :: rest)))) =
              [' ', '\n'] ++ (dumpPairs (.cons k2 v2 kvs2) (lvl + 1) ++
              '\n' :: (indSp lvl ++ '\x7d' :: rest)) from rfl,
            parsePairs_ws f [' ', '\n'] _ ws_sp_nl]
          have hdf : dfuel (.cons k2 v2 kvs2) ≤ f := by
            simp only [dfuel] at hfuel ⊢
            omega
          exact hR hkvs (fun h => PyDict.noConfusion h) lvl f rest hdf
        rw [parsePairs_more f _ _ k.data _ _ _ _ rest v (.cons k2 v2 kvs2) h0 hkparse
          (skipWs_cons_not_ws (by decide) _) hvparse
          (skipWs_cons_not_ws (by decide) _) h3, string_mk_data]

theorem serialize_ok_all :
    (∀ v, repJson v = true → findErr v = Option.none) ∧
    (∀ xs, repJsonL xs = true → findErrL xs = Option.none) ∧
    (∀ kvs, repJsonD kvs = true → findErrD kvs = Option.none) := by
  apply pyInd
  case hstr => intro s _; rfl
  case hint => intro n _; rfl
  case hbool => intro b _; rfl
  case hnone => intro _; rfl
  case hself => intro h; simp [repJson] at h
  case hobj => intro r h; simp [repJson] at h
  case hlist =>
    intro xs ih h
    simp only [repJson] at h
    simp only [findErr]
    exact ih h
  case hdict =>
    intro kvs ih h
    simp only [repJson] at h
    simp only [findErr]
    exact ih h
  case hnil => intro _; rfl
  case hcons =>
    intro x xs ihx ihxs h
    simp only [repJsonL, Bool.and_eq_true] at h
    simp only [findErrL, ihx h.1, ihxs h.2]
  case hdnil => intro _; rfl
  case hdcons =>
    intro k v kvs ihv ihkvs h
    simp only [repJsonD, Bool.and_eq_true] at h
    simp only [findErrD, ihv h.1.2, ihkvs h.2]

theorem fuel_le_dump_all :
    (∀ v, ∀ lvl, vfuel v ≤ (dumpOk v lvl).length + 1) ∧
    (∀ xs, ∀ lvl, lfuel xs ≤ (dumpElems xs lvl).length + 2) ∧
    (∀ kvs, ∀ lvl, dfuel kvs ≤ (dumpPairs kvs lvl).length + 2) := by
  apply pyInd
  case hstr => intro s lvl; simp [vfuel, dumpOk]
  case hint => intro n lvl; simp [vfuel, dumpOk]
  case hbool => intro b lvl; cases b <;> simp [vfuel, dumpOk]
  case hnone => intro lvl; simp [vfuel, dumpOk]
  case hself => intro lvl; simp [vfuel, dumpOk]
  case hobj => intro r lvl; simp [vfuel, dumpOk]
  case hlist =>
    intro xs ih lvl
    cases xs with
    | nil => simp [vfuel, lfuel, dumpOk]
    | cons y ys =>
      have := ih (lvl + 1)
      simp only [vfuel, dumpOk, List.length_cons, List.length_append,
        indSp, List.length_replicate] at this ⊢
      omega
  case hdict =>
    intro kvs ih lvl
    cases kvs with
    | nil => simp [vfuel, dfuel, dumpOk]
    | cons k v kvs2 =>
      have := ih (lvl + 1)
      simp only [vfuel, dumpOk, List.length_cons, List.length_append,
        indSp, List.length_replicate] at this ⊢
      omega
  case hnil => intro lvl; simp [lfuel, dumpElems]
  case hcons =>
    intro x xs ihx ihxs lvl
    cases xs with
    | nil =>
      have := ihx lvl
      simp only [lfuel, dumpElems, List.length_append, indSp,
        List.length_replicate] at this ⊢
      omega
    | cons y ys =>
      have h1 := ihx lvl
      have h2 := ihxs lvl
      simp only [lfuel, dumpElems, List.length_append, List.length_cons, indSp,
        List.length_replicate] at h1 h2 ⊢
      omega
  case hdnil => intro lvl; simp [dfuel, dumpPairs]
  case hdcons =>
    intro k v kvs ihv ihkvs lvl
    cases kvs with
    | nil =>
      have := ihv lvl
      simp only [dfuel, dumpPairs, List.length_append, List.length_cons, indSp,
        List.length_replicate] at this ⊢
      omega
    | cons k2 v2 kvs2 =>
      have h1 := ihv lvl
      have h2 := ihkvs lvl
      simp only [dfuel, dumpPairs, List.length_append, List.length_cons, indSp,
        List.length_replicate] at h1 h2 ⊢
      omega

theorem dumps_of_rep (v : PyValue) (hv : repJson v = true) :
    json.dumps v = .ok (String.mk (dumpOk v 0)) := by
  simp only [json.dumps, serialize_ok_all.1 v hv]

theorem loads_dumps (v : PyValue) (hv : repJson v = true) :
    json.loads (PyValue.str (String.mk (dumpOk v 0))) = .ok v := by
  simp only [json.loads]
  have hparse : parseVal ((dumpOk v 0).length + 1) (dumpOk v 0) = some (v, []) := by
    rw [← List.append_nil (dumpOk v 0)]
    exact roundtrip_all.1 v hv 0 ((dumpOk v 0 ++ []).length + 1) []
      (by simp; exact fuel_le_dump_all.1 v 0) trivial
  rw [hparse]
  rfl

theorem preprocess_txt (v : PyValue) : preprocess v ".txt" = DotTxt.pre v := rfl

theorem preprocess_json (v : PyValue) : preprocess v ".json" = DotJson.pre v := rfl

theorem preprocess_ini (v : PyValue) : preprocess v ".ini" = DotIni.pre v := rfl

theorem preprocess_gdoc (v : PyValue) : preprocess v ".gdoc" = DotGdoc.pre v := rfl

theorem postprocess_txt (v : PyValue) : postprocess v ".txt" = DotTxt.post v := rfl

theorem postprocess_json (v : PyValue) : postprocess v ".json" = DotJson.post v := rfl

theorem postprocess_ini (v : PyValue) : postprocess v ".ini" = DotIni.post v := rfl

theorem postprocess_gdoc (v : PyValue) : postprocess v ".gdoc" = DotGdoc.post v := rfl

/-- C1, counterexample: the section-config inbound transform
`DotIni.post` does not fail with `NotImplementedError`; on the concrete
input `"x"` it silently returns the null value `None`. -/
theorem c1_counterexample :
    DotIni.post (PyValue.str "x") = Except.ok PyValue.pyNone ∧
    DotIni.post (PyValue.str "x") ≠ Except.error PyErr.notImplementedError :=
  ⟨rfl, fun h => Except.noConfusion h⟩

/-- C1, amended: calling `DotIni.post` (the unimplemented section-config
inbound direction) silently returns the null value `None` for every
input; its body is `pass`, so it raises nothing. -/
theorem c1_amended (raw : PyValue) : DotIni.post raw = Except.ok PyValue.pyNone := rfl

/-- C2: dispatching with the unregistered formatID ".xyz" fails with a
`ValueError` and invokes no handler, but — because the source rebinds
`format = mapping.get(format)` before raising — the message interpolates
the rebound `None` instead of the requested identifier ".xyz". -/
theorem c2_unsupported_behavior :
    preprocess (PyValue.str "v") ".xyz" =
      Except.error (PyErr.valueError "Format \"None\" not supported") ∧
    postprocess (PyValue.str "v") ".xyz" =
      Except.error (PyErr.valueError "Format \"None\" not supported") :=
  ⟨rfl, rfl⟩

/-- C3, counterexample: on a value containing a reference cycle
(`json.dumps` raises `ValueError`), `DotJson.pre` does not fail with the
"Data corrupt" error: it returns the degraded empty mapping instead. -/
theorem c3_counterexample :
    DotJson.pre PyValue.selfRef = Except.ok (PyValue.dict PyDict.nil) ∧
    DotJson.pre (PyValue.list (PyList.cons PyValue.selfRef PyList.nil)) =
      Except.ok (PyValue.dict PyDict.nil) :=
  ⟨rfl, rfl⟩

/-- C3, amended: whenever serialization fails with a `TypeError` (an
unencodable native object), `DotJson.pre` fails with the DataCorrupted
error whose message embeds the original value and the underlying cause;
a reference cycle instead takes the recoverable `ValueError` path and
yields the degraded empty mapping. -/
theorem c3_data_corrupted (v : PyValue) (m : String)
    (h : json.dumps v = Except.error (PyErr.typeError m)) :
    DotJson.pre v =
      Except.error (PyErr.typeError ("Data corrupt | " ++ pyStr v ++ "\n" ++ m)) := by
  simp only [DotJson.pre, h]

/-- C3, witness: a native `set` object triggers the DataCorrupted error
carrying the value and the cause. -/
theorem c3_witness :
    DotJson.pre (PyValue.obj "set([1, 2])") =
      Except.error (PyErr.typeError ("Data corrupt | " ++ pyStr (PyValue.obj "set([1, 2])") ++
        "\n" ++ "set([1, 2]) is not JSON serializable")) :=
  c3_data_corrupted (PyValue.obj "set([1, 2])") "set([1, 2]) is not JSON serializable" rfl

/-- C4: for each registered formatID among the plain-text and structured
key/value formats and every representative value appropriate to it,
postprocessing the preprocessed value returns the original (round-trip
law). -/
theorem c4_round_trip (format : String) (v : PyValue)
    (hv : RepresentativeFor format v) :
    (preprocess v format).bind (fun w => postprocess w format) = Except.ok v := by
  rcases hv with ⟨hf, hs⟩ | ⟨hf, hj⟩
  · subst hf
    cases v <;> first | rfl | simp [PyValue.isStr] at hs
  · subst hf
    rw [preprocess_json,
      show DotJson.pre v = Except.ok (PyValue.str (String.mk (dumpOk v 0))) from by
        simp only [DotJson.pre, dumps_of_rep v hj]]
    show postprocess (PyValue.str (String.mk (dumpOk v 0))) ".json" = Except.ok v
    rw [postprocess_json]
    exact loads_dumps v hj

/-- C4, witness: the round trip at the plain string "hello" under ".txt"
and at the dictionary `\x7b"Key": "Value"\x7d` under ".json". -/
theorem c4_witness :
    (RepresentativeFor ".txt" (PyValue.str "hello") ∧
      (preprocess (PyValue.str "hello") ".txt").bind
        (fun w => postprocess w ".txt") = Except.ok (PyValue.str "hello")) ∧
    (RepresentativeFor ".json"
        (PyValue.dict (PyDict.cons "Key" (PyValue.str "Value") PyDict.nil)) ∧
      (preprocess (PyValue.dict (PyDict.cons "Key" (PyValue.str "Value") PyDict.nil))
          ".json").bind (fun w => postprocess w ".json") =
        Except.ok (PyValue.dict (PyDict.cons "Key" (PyValue.str "Value") PyDict.nil))) :=
  ⟨⟨Or.inl ⟨rfl, rfl⟩, c4_round_trip ".txt" (PyValue.str "hello") (Or.inl ⟨rfl, rfl⟩)⟩,
   ⟨Or.inr ⟨rfl, rfl⟩, c4_round_trip ".json"
      (PyValue.dict (PyDict.cons "Key" (PyValue.str "Value") PyDict.nil))
      (Or.inr ⟨rfl, rfl⟩)⟩⟩

/-- C5: the section-config deserializing transform never returns the
claimed mapping: `config.read_string(raw)` raises `AttributeError` at
the claimed input "[A]\nkey=val\n" — and at every other input — because
the Python 2 `ConfigParser` the module imports has no `read_string`.
Under the `read_string` semantics the call site assumes (the intended
behavior `DotIni.preIntended`), the claimed two-level mapping and the
option-name case preservation do hold. -/
theorem c5_ini_crash_vs_intent :
    DotIni.pre (PyValue.str "[A]\nkey=val\n") =
      Except.error (PyErr.attributeError
        "ConfigParser instance has no attribute \x27read_string\x27") ∧
    (∀ raw, DotIni.pre raw =
      Except.error (PyErr.attributeError
        "ConfigParser instance has no attribute \x27read_string\x27")) ∧
    DotIni.preIntended (PyValue.str "[A]\nkey=val\n") =
      Except.ok (PyValue.dict (PyDict.cons "A"
        (PyValue.dict (PyDict.cons "key" (PyValue.str "val") PyDict.nil)) PyDict.nil)) ∧
    DotIni.preIntended (PyValue.str "[A]\nKey=val\n") =
      Except.ok (PyValue.dict (PyDict.cons "A"
        (PyValue.dict (PyDict.cons "Key" (PyValue.str "val") PyDict.nil)) PyDict.nil)) :=
  ⟨rfl, fun _ => rfl, rfl, rfl⟩

/-- C6: whenever `json.dumps` raises `ValueError`, `DotJson.pre` absorbs
the failure — it returns the empty mapping and logs the message — and
this is the only absorption in the module: the structured inbound
operation propagates its failures, the section-config outbound
operation fails unconditionally (its `read_string` access raises
`AttributeError` before any work, so it never converts a failure into
a success), the remote-document operations always fail, and the
plain-text operations have no failure to absorb. -/
theorem c6_degraded_only_absorption :
    (∀ v m, json.dumps v = Except.error (PyErr.valueError m) →
      DotJson.pre v = Except.ok (PyValue.dict PyDict.nil) ∧ DotJson.preLog v = [m]) ∧
    (∀ v e, json.loads v = Except.error e → DotJson.post v = Except.error e) ∧
    (∀ raw, DotIni.pre raw =
      Except.error (PyErr.attributeError
        "ConfigParser instance has no attribute \x27read_string\x27")) ∧
    (∀ raw, DotTxt.pre raw = Except.ok (PyValue.str (pyStr raw)) ∧
      DotTxt.post raw = Except.ok (PyValue.str (pyStr raw))) ∧
    (∀ raw, DotGdoc.pre raw = Except.error PyErr.notImplementedError ∧
      DotGdoc.post raw = Except.error PyErr.notImplementedError) := by
  refine ⟨?_, ?_, ?_, ?_, ?_⟩
  · intro v m h
    exact ⟨by simp only [DotJson.pre, h], by simp only [DotJson.preLog, h]⟩
  · intro v e h
    exact h
  · intro raw
    rfl
  · intro raw
    exact ⟨rfl, rfl⟩
  · intro raw
    exact ⟨rfl, rfl⟩

/-- C6, witness: the reference cycle exercises the absorbed path: empty
mapping plus the diagnostic log entry. -/
theorem c6_witness :
    DotJson.pre PyValue.selfRef = Except.ok (PyValue.dict PyDict.nil) ∧
    DotJson.preLog PyValue.selfRef = ["Circular reference detected"] :=
  c6_degraded_only_absorption.1 PyValue.selfRef "Circular reference detected" rfl

/-- C7: both directions of the remote-document handler fail with
`NotImplementedError` for every input; neither ever returns a value. -/
theorem c7_gdoc_not_implemented (raw : PyValue) :
    DotGdoc.pre raw = Except.error PyErr.notImplementedError ∧
    DotGdoc.post raw = Except.error PyErr.notImplementedError :=
  ⟨rfl, rfl⟩

/-- C8, counterexample: the malformed-input failure of `DotJson.post`
and the unsupported-format failure of the dispatcher are both of Python
class `ValueError`, so the four error kinds are not pairwise
distinguishable by type. -/
theorem c8_counterexample :
    DotJson.post (PyValue.str "\x7bnot valid") =
      Except.error (PyErr.valueError "No JSON object could be decoded") ∧
    postprocess (PyValue.str "x") ".xyz" =
      Except.error (PyErr.valueError "Format \"None\" not supported") ∧
    PyErr.pyType (PyErr.valueError "No JSON object could be decoded") =
      PyErr.pyType (PyErr.valueError "Format \"None\" not supported") :=
  ⟨rfl, rfl, rfl⟩

/-- C8, amended: every text given to `DotJson.post` either deserializes
or fails with a MalformedInput error — a `ValueError`, never another
exception class — so in particular every syntactically invalid text
fails with `ValueError`, as "\x7bnot valid" does concretely; that error
is distinguishable by type from DataCorrupted (`TypeError`) and
NotImplemented (`NotImplementedError`), but it shares the `ValueError`
type with UnsupportedFormat, so those two kinds can only be told apart
by message or call context. -/
theorem c8_amended :
    (∀ s, (∃ v, DotJson.post (PyValue.str s) = Except.ok v) ∨
      (∃ m, DotJson.post (PyValue.str s) = Except.error (PyErr.valueError m))) ∧
    DotJson.post (PyValue.str "\x7bnot valid") =
      Except.error (PyErr.valueError "No JSON object could be decoded") ∧
    (∀ m, PyErr.pyType (PyErr.valueError "No JSON object could be decoded") ≠
      PyErr.pyType (PyErr.typeError m)) ∧
    PyErr.pyType (PyErr.valueError "No JSON object could be decoded") ≠
      PyErr.pyType PyErr.notImplementedError ∧
    PyErr.pyType (PyErr.valueError "No JSON object could be decoded") =
      PyErr.pyType (PyErr.valueError "Format \"None\" not supported") := by
  refine ⟨?_, rfl, ?_, by decide, rfl⟩
  · intro s
    rw [show DotJson.post (PyValue.str s) = json.loads (PyValue.str s) from rfl]
    simp only [json.loads]
    cases h : parseVal (s.data.length + 1) s.data with
    | none => exact Or.inr ⟨"No JSON object could be decoded", rfl⟩
    | some p =>
      obtain ⟨v, rest⟩ := p
      by_cases hw : skipWs rest = []
      · exact Or.inl ⟨v, by
          show (if skipWs rest = [] then Except.ok v
            else Except.error (PyErr.valueError "Extra data")) = Except.ok v
          rw [if_pos hw]⟩
      · exact Or.inr ⟨"Extra data", by
          show (if skipWs rest = [] then Except.ok v
            else Except.error (PyErr.valueError "Extra data")) =
            Except.error (PyErr.valueError "Extra data")
          rw [if_neg hw]⟩
  · intro m
    simp [PyErr.pyType]

/-- C9: the plain-text transforms never fail and return the
display-string form of the input, in both directions. -/
theorem c9_txt_total (raw : PyValue) :
    DotTxt.pre raw = Except.ok (PyValue.str (pyStr raw)) ∧
    DotTxt.post raw = Except.ok (PyValue.str (pyStr raw)) :=
  ⟨rfl, rfl⟩

/-- C10: when `json.dumps` raises `ValueError`, the degraded result of
`preprocess(v, ".json")` is the native empty dict, not the serialized
text `"\x7b\x7d"`, and feeding it back through `postprocess(-, ".json")`
fails with a `TypeError` rather than returning an empty mapping. -/
theorem c10_degraded_native_dict (v : PyValue) (m : String)
    (h : json.dumps v = Except.error (PyErr.valueError m)) :
    preprocess v ".json" = Except.ok (PyValue.dict PyDict.nil) ∧
    preprocess v ".json" ≠ Except.ok (PyValue.str "\x7b\x7d") ∧
    postprocess (PyValue.dict PyDict.nil) ".json" =
      Except.error (PyErr.typeError "expected string or buffer") := by
  have h1 : preprocess v ".json" = Except.ok (PyValue.dict PyDict.nil) := by
    rw [preprocess_json]
    simp only [DotJson.pre, h]
  refine ⟨h1, ?_, rfl⟩
  rw [h1]
  intro hcontra
  injection hcontra with hx
  exact PyValue.noConfusion hx

/-- C10, witness: at the reference cycle, the degraded result is the
native empty dict and re-deserializing it raises `TypeError`. -/
theorem c10_witness :
    preprocess PyValue.selfRef ".json" = Except.ok (PyValue.dict PyDict.nil) ∧
    preprocess PyValue.selfRef ".json" ≠ Except.ok (PyValue.str "\x7b\x7d") ∧
    postprocess (PyValue.dict PyDict.nil) ".json" =
      Except.error (PyErr.typeError "expected string or buffer") :=
  c10_degraded_native_dict PyValue.selfRef "Circular reference detected" rfl
